import Mathlib

/-!
Verification of the tagflag declarative command-line binder.

This file is a shallow embedding of the tagflag package: the registration
walk, the token parsing state machine and the value marshaling strategies
of the Go file parser.go (the variant whose arg marshal functions take an
explicitValue flag, lines 325-688 of the concatenated file) together with
the registered marshal functions of types.go and the caller error mapping
of the Parse entry point.  Go mutates the destination record in place
through reflect.Value handles captured by marshal closures; here every
slot carries its current value and marshaling returns the updated value,
so the whole parse is a pure state-passing function.

External dependencies (fmt.Sscan, xstrings.ToSnakeCase, the regexes of
fieldLongFlagKey, net.ResolveTCPAddr) are modelled by small Lean
functions that are faithful on the inputs the development exercises; the
TCP address resolver is kept abstract as a function parameter, the way
types.go treats it as an opaque conversion.

The ExcessArgs sink is referenced only by the test files of the
repository; its implementation is not among the sources, so the sink
behaviour is modelled from the spec where marked below.
-/

namespace Tagflag

/-- Error classes of the package: userError (types defined alongside the
second variant), generic errors produced with fmt.Errorf, and the
distinguished ErrDefaultHelp value returned for the reserved help keys. -/
inductive GoErr where
  | user (msg : String)
  | plain (msg : String)
  | defaultHelp

/-- Message carried by an error, as the Go %s verb would print it
(ErrDefaultHelp prints as "help flag"). -/
def errMsg : GoErr → String
  | .user m => m
  | .plain m => m
  | .defaultHelp => "help flag"

/-- True exactly for the userError class. -/
def GoErr.isUser : GoErr → Bool
  | .user _ => true
  | _ => false

/-- Exit status selection of the Parse entry point: exit 0 after the
builtin help flag, exit 2 for a userError, exit 1 for anything else. -/
def exitCodeFor : GoErr → Nat
  | .defaultHelp => 0
  | .user _ => 2
  | .plain _ => 1

/-- Rendering of the %q verb for the argument strings appearing in error
messages (none of the tokens exercised here needs escaping). -/
def quoteStr (s : String) : String := "\"" ++ s ++ "\""

/-- Field types covered by the claims: the primitive kinds handled by the
fallback marshaler, slices thereof, and *net.TCPAddr which is registered
in typeMarshalFuncs with explicitValueRequired = true. -/
inductive Ty where
  | bool
  | str
  | int
  | uint
  | tcpAddr
  | slice (elem : Ty)

/-- Runtime values stored in the destination record. -/
inductive Val where
  | vBool (b : Bool)
  | vStr (s : String)
  | vInt (n : Int)
  | vAddr (s : String)
  | vList (xs : List Val)

/-- Zero value of each field type (the destination record arrives zeroed;
the nil *net.TCPAddr pointer is modelled as an empty address). -/
def zeroVal : Ty → Val
  | .bool => .vBool false
  | .str => .vStr ""
  | .int => .vInt 0
  | .uint => .vInt 0
  | .tcpAddr => .vAddr ""
  | .slice _ => .vList []

/-- Base-10 natural number scan over characters (the digit part of
fmt.Sscan's integer scanning); fails on an empty or non-digit input. -/
def parseNatChars (cs : List Char) : Option Nat :=
  if cs.isEmpty then none
  else if cs.all Char.isDigit then
    some (cs.foldl (fun n c => n * 10 + (c.toNat - 48)) 0)
  else none

/-- Signed base-10 integer scan over characters. -/
def parseIntChars : List Char → Option Int
  | '-' :: rest => (parseNatChars rest).map (fun n => -(n : Int))
  | cs => (parseNatChars cs).map (fun n => (n : Int))

/-- Model of fmt.Sscan into a value of the given kind: booleans accept
true/false, strings read the first whitespace-delimited token (and fail
with EOF on an empty input), integers are scanned in base 10.  The
tcpAddr and slice cases are unreachable: registered marshal functions and
the slice branch of the fallback are consulted before Sscan. -/
def sscanVal : Ty → String → Except String Val
  | .bool, s =>
      if s = "true" then .ok (.vBool true)
      else if s = "false" then .ok (.vBool false)
      else .error "bad bool value"
  | .str, s =>
      let cs := s.data.dropWhile Char.isWhitespace
      if cs.isEmpty then .error "unexpected EOF"
      else .ok (.vStr (String.mk (cs.takeWhile (fun c => !c.isWhitespace))))
  | .int, s =>
      match parseIntChars s.data with
      | some n => .ok (.vInt n)
      | none => .error "invalid syntax"
  | .uint, s =>
      match parseNatChars s.data with
      | some n => .ok (.vInt (Int.ofNat n))
      | none => .error "invalid syntax"
  | .tcpAddr, _ => .error "unsupported type"
  | .slice _, _ => .error "unsupported type"

/-- The marshal behaviour produced by valueMarshaler in parser.go.  The
tcpAddr case is the wrapper built by addMarshalFunc in types.go around
net.ResolveTCPAddr with explicitValueRequired = true: without an explicit
value it fails with the userError "explicit value required", otherwise it
invokes the resolver (kept abstract as the resolve parameter).  The other
cases are the fallback closure of valueMarshaler: a bool with an empty
argument is set to true; a slice marshals the token into a fresh zero
element and appends it; everything else goes through fmt.Sscan, whose
failure is wrapped as fmt.Errorf("error parsing %q: %s", ...). -/
def marshalVal (resolve : String → Except String String) :
    Ty → Val → String → Bool → Except GoErr Val
  | .tcpAddr, _, s, explicitValue =>
      if explicitValue then
        match resolve s with
        | .ok a => .ok (.vAddr a)
        | .error e => .error (.plain e)
      else .error (.user "explicit value required")
  | .bool, _, s, _ =>
      if s = "" then .ok (.vBool true)
      else
        match sscanVal .bool s with
        | .ok x => .ok x
        | .error e => .error (.plain ("error parsing " ++ quoteStr s ++ ": " ++ e))
  | .slice elem, v, s, explicitValue =>
      match marshalVal resolve elem (zeroVal elem) s explicitValue with
      | .ok x => .ok (.vList ((match v with | .vList xs => xs | _ => []) ++ [x]))
      | .error e => .error e
  | .str, _, s, _ =>
      match sscanVal .str s with
      | .ok x => .ok x
      | .error e => .error (.plain ("error parsing " ++ quoteStr s ++ ": " ++ e))
  | .int, _, s, _ =>
      match sscanVal .int s with
      | .ok x => .ok x
      | .error e => .error (.plain ("error parsing " ++ quoteStr s ++ ": " ++ e))
  | .uint, _, s, _ =>
      match sscanVal .uint s with
      | .ok x => .ok x
      | .error e => .error (.plain ("error parsing " ++ quoteStr s ++ ": " ++ e))

/-- valueMarshaler resolves a marshal strategy for a field.  In the
source it returns nil for the Ptr and Struct kinds; the Ty of this
embedding only contains marshalable kinds, so the result is always
present. -/
def valueMarshaler (resolve : String → Except String String) (ty : Ty) :
    Option (Val → String → Bool → Except GoErr Val) :=
  some (marshalVal resolve ty)

/-- canMarshal from parser.go: a field is terminal when valueMarshaler
finds a strategy for it. -/
def canMarshal (ty : Ty) : Bool :=
  (valueMarshaler (fun _ => .error "unused") ty).isSome

/-- Arity window of a slot (min and max count of tokens). -/
structure ArityT where
  min : Nat
  max : Nat

/-- Modelled from the spec: the infArity sentinel constant is not among
the sources (only its uses are); the spec says infinity is "represented
by a sentinel large enough never to be reached in practice". -/
def infArity : Nat := 2147483647

/-- One registered slot (the arg struct of parser.go).  The Go struct
stores a marshal closure capturing the destination reflect.Value; here
the slot stores its type and current value and the strategy is recovered
from the type via valueMarshaler. -/
structure ArgT where
  ty : Ty
  val : Val
  arity : ArityT
  name : String

/-- Lowers a list of characters (ASCII). -/
def lowerChars (cs : List Char) : List Char := cs.map Char.toLower

/-- fieldLongFlagKey: derives the default flag name from a field
identifier, lower-casing a leading acronym run as a unit.  The source
uses three anchored regexes tried in order: a name that is entirely
uppercase (length at least two) is lowered whole; a run of at least two
leading uppercase letters followed by more text lowers all but the last
letter of the run; otherwise the single leading uppercase letter is
lowered.  The Go code panics on an identifier with no leading uppercase
letter; that branch returns the input unchanged here. -/
def fieldLongFlagKey (s : String) : String :=
  let cs := s.data
  let us := cs.takeWhile Char.isUpper
  let rest := cs.dropWhile Char.isUpper
  if rest.isEmpty ∧ 2 ≤ us.length then String.mk (lowerChars us)
  else if 2 ≤ us.length ∧ ¬rest.isEmpty then
    String.mk (lowerChars (us.take (us.length - 1)) ++ us.drop (us.length - 1) ++ rest)
  else if 1 ≤ us.length then
    String.mk (lowerChars (us.take 1) ++ us.drop 1 ++ rest)
  else s

/-- Helper for the snake-case model: emits an underscore before an
uppercase letter that follows a lowercase letter or a digit. -/
def snakeCaseAux : Option Char → List Char → List Char
  | _, [] => []
  | prev, c :: rest =>
      let sep :=
        match prev with
        | some p => c.isUpper && (p.isLower || p.isDigit)
        | none => false
      (if sep then ['_', c.toLower] else [c.toLower]) ++ snakeCaseAux (some c) rest

/-- Model of xstrings.ToSnakeCase (external dependency), faithful on the
plain identifiers used as positional argument names. -/
def toSnakeCase (s : String) : String :=
  String.mk (snakeCaseAux none s.data)

/-- Positional slot display name: strings.ToUpper(xstrings.ToSnakeCase(name)). -/
def posArgName (fieldName : String) : String :=
  String.mk ((toSnakeCase fieldName).data.map Char.toUpper)

/-- One struct field as the registration walk sees it: identifier, the
name and arity tags (empty string when absent), and the field type. -/
structure FieldF where
  fname : String
  nameTag : String
  arityTag : String
  ty : Ty

/-- A field of the command struct: the StartPos marker, the ExcessArgs
sink (present only in the repository's tests; modelled from the spec), or
an ordinary field. -/
inductive FieldSpec where
  | startPos
  | excessArgs
  | plain (f : FieldF)

/-- structFieldFlag: the name tag overrides the derived flag name. -/
def structFieldFlag (f : FieldF) : String :=
  if f.nameTag ≠ "" then f.nameTag else fieldLongFlagKey f.fname

/-- fieldArity: default window is one token; slices default to an
unbounded max; the arity tag narrows or widens it.  The source panics on
any other tag value; that branch keeps the default here. -/
def fieldArity (ty : Ty) (tag : String) : ArityT :=
  let isSlice := match ty with | .slice _ => true | _ => false
  let base : ArityT := { min := 1, max := if isSlice then infArity else 1 }
  if tag = "" then base
  else if tag = "?" then { base with min := 0 }
  else if tag = "*" then { min := 0, max := infArity }
  else if tag = "+" then { base with max := infArity }
  else base

/-- Parser state: name-keyed flag slots, ordered positional slots, the
count of consumed positional tokens, the help configuration, and the
excess sink (modelled from the spec; none when no sink field is
registered). -/
structure ParserS where
  flags : List (String × ArgT)
  posArgs : List ArgT
  numPos : Nat
  noDefaultHelp : Bool
  excessSink : Option (List String)

/-- The parser newParser starts from before registration. -/
def emptyParser : ParserS :=
  { flags := [], posArgs := [], numPos := 0, noDefaultHelp := false, excessSink := none }

/-- newArg: build a slot for a field under the given display name, with
a zero initial value (the destination record arrives zeroed). -/
def newArgSlot (f : FieldF) (name : String) : ArgT :=
  { ty := f.ty, val := zeroVal f.ty, arity := fieldArity f.ty f.arityTag, name := name }

/-- addFlag: registering a flag fails when the derived name is already
present, mirroring the map membership test of addFlag. -/
def addFlag (p : ParserS) (f : FieldF) : Except String ParserS :=
  let name := structFieldFlag f
  if (p.flags.lookup name).isSome then
    .error ("flag " ++ quoteStr name ++ " defined more than once")
  else
    .ok { p with flags := p.flags ++ [(name, newArgSlot f name)] }

/-- addPos: positional slots are appended in registration order under
their upper snake-case display name. -/
def addPos (p : ParserS) (f : FieldF) : ParserS :=
  { p with posArgs := p.posArgs ++ [newArgSlot f (posArgName f.fname)] }

/-- parseStruct: walk the fields in declaration order; the StartPos
marker flips the walk into positional mode; marshalable fields register
as flags before the marker and positionals after it; an addFlag error is
wrapped (the source interpolates the struct type name, omitted here).
The ExcessArgs case is modelled from the spec: it records that a sink is
present.  Nested structs (recursed into by the source) are outside the
claims and not represented in FieldSpec. -/
def parseStructAux : ParserS → Bool → List FieldSpec → Except String ParserS
  | p, _, [] => .ok p
  | p, posStarted, .startPos :: rest =>
      if posStarted then parseStructAux p posStarted rest
      else parseStructAux p true rest
  | p, posStarted, .excessArgs :: rest =>
      parseStructAux { p with excessSink := some [] } posStarted rest
  | p, posStarted, .plain f :: rest =>
      if canMarshal f.ty then
        if posStarted then parseStructAux (addPos p f) posStarted rest
        else
          match addFlag p f with
          | .error e => .error ("error adding flag: " ++ e)
          | .ok p2 => parseStructAux p2 posStarted rest
      else .error "field has bad type"

/-- newParser followed by parseCmd: build the registry from the field
list, before any token is seen. -/
def newParserGo (fields : List FieldSpec) : Except String ParserS :=
  parseStructAux emptyParser false fields

/-- The successfully built registry (defaulting to the empty parser when
construction fails; used only to state properties of successful builds). -/
def builtParser (fields : List FieldSpec) : ParserS :=
  match newParserGo fields with
  | .ok p => p
  | .error _ => emptyParser

/-- Split at the first '=' byte, as strings.IndexByte followed by the two
slicings in parseFlag. -/
def splitEqChars : List Char → Option (List Char × List Char)
  | [] => none
  | c :: rest =>
      if c = '=' then some ([], rest)
      else
        match splitEqChars rest with
        | some kv => some (c :: kv.1, kv.2)
        | none => none

/-- The flag-shape test of parseAny: strings.HasPrefix(a, "-") together
with len(a) > 1 (all tokens exercised here are ASCII, so byte length and
character length agree). -/
def isFlagShape (a : String) : Bool :=
  match a.data with
  | c :: _ :: _ => c = '-'
  | _ => false

/-- Replace the stored value of the named flag slot (the Go closure
mutates the captured reflect.Value instead). -/
def setFlagVal : List (String × ArgT) → String → Val → List (String × ArgT)
  | [], _, _ => []
  | (k, a) :: rest, name, v =>
      if k = name then (k, { a with val := v }) :: rest
      else (k, a) :: setFlagVal rest name v

/-- indexPosArg: select the positional slot receiving token number i by
walking the cumulative maximum arities; returns the slot's index in the
list together with the slot, or none when every slot is full. -/
def indexPosArgAux : List ArgT → Nat → Option (Nat × ArgT)
  | [], _ => none
  | a :: rest, i =>
      if i < a.arity.max then some (0, a)
      else
        match indexPosArgAux rest (i - a.arity.max) with
        | some x => some (x.1 + 1, x.2)
        | none => none

/-- minPos: the sum of the minimum arities of the positional slots. -/
def minPosOf (l : List ArgT) : Nat :=
  (l.map (fun a => a.arity.min)).sum

/-- Name used in the missing-argument message: the slot indexPosArg
selects for the next token (the source dereferences the returned pointer;
it is never nil when numPos < minPos). -/
def posArgNameAt (p : ParserS) : String :=
  match indexPosArgAux p.posArgs p.numPos with
  | some x => x.2.name
  | none => ""

/-- Key, explicit value and presence of '=' extracted from a flag token
(already stripped of one leading dash), as the first lines of parseFlag. -/
def splitFlagToken (s : String) : String × String × Bool :=
  match splitEqChars s.data with
  | some kv => (String.mk kv.1, String.mk kv.2, true)
  | none => (s, "", false)

/-- parseFlag: look the split key up; unknown keys hit the reserved help
names or fail as a userError; a found slot marshals the explicit value
(or the empty string when none), and a marshal failure is wrapped with
fmt.Errorf into a generic error. -/
def parseFlag (resolve : String → Except String String) (p : ParserS) (s : String) :
    Except GoErr ParserS :=
  let kve : String × String × Bool := splitFlagToken s
  match p.flags.lookup kve.1 with
  | none =>
      if (kve.1 == "help" || kve.1 == "h") && !p.noDefaultHelp then .error .defaultHelp
      else .error (.user ("unknown flag: " ++ quoteStr kve.1))
  | some a =>
      match marshalVal resolve a.ty a.val kve.2.1 kve.2.2 with
      | .error e => .error (.plain ("error setting flag " ++ quoteStr kve.1 ++ ": " ++ errMsg e))
      | .ok nv => .ok { p with flags := setFlagVal p.flags kve.1 nv }

/-- parsePos: a positional token goes to the slot indexPosArg selects,
with explicitValue true; with no slot left it is an excess argument. -/
def parsePos (resolve : String → Except String String) (p : ParserS) (s : String) :
    Except GoErr ParserS :=
  match indexPosArgAux p.posArgs p.numPos with
  | none => .error (.user ("excess argument: " ++ quoteStr s))
  | some x =>
      match marshalVal resolve x.2.ty x.2.val s true with
      | .error e => .error e
      | .ok nv =>
          .ok { p with posArgs := p.posArgs.set x.1 { x.2 with val := nv },
                       numPos := p.numPos + 1 }

/-- Modelled from the spec: the ExcessArgs sink implementation is not
among the sources (only the repository's tests mention it).  Per the
spec, capture triggers once a sink is registered and no positional slot
can accept a further token: "once it is known to exist and no further
Positional Slot can accept a token, the parser stops and hands the
remainder to the sink rather than erroring"; the captured tokens are kept
verbatim and never flag-parsed. -/
def sinkCaptures (p : ParserS) : Bool :=
  p.excessSink.isSome && (indexPosArgAux p.posArgs p.numPos).isNone

/-- parseAny: the main token loop.  A bare "--" stops flag parsing and
returns the remainder; note the source computes left = args[1:] after
args was already advanced past the separator, discarding one further
token (and panicking in Go when "--" is the last token; List.drop is
total here).  A token of flag shape is parsed as a flag with one leading
dash removed; anything else is positional.  The sinkCaptures branch is
modelled from the spec. -/
def parseAnyGo (resolve : String → Except String String) :
    ParserS → List String → Except GoErr (ParserS × List String)
  | p, [] => .ok (p, [])
  | p, a :: rest =>
      if sinkCaptures p then
        .ok ({ p with excessSink := some (a :: rest) }, [])
      else if a = "--" then .ok (p, rest.drop 1)
      else if isFlagShape a then
        match parseFlag resolve p (String.mk (a.data.drop 1)) with
        | .error e => .error e
        | .ok p2 => parseAnyGo resolve p2 rest
      else
        match parsePos resolve p a with
        | .error e => .error e
        | .ok p2 => parseAnyGo resolve p2 rest

/-- parsePosArgs: the tokens left after a "--" separator are all
positional.  The sink branch is modelled from the spec as in parseAnyGo. -/
def parsePosArgsGo (resolve : String → Except String String) :
    ParserS → List String → Except GoErr ParserS
  | p, [] => .ok p
  | p, a :: rest =>
      if sinkCaptures p then
        .ok { p with excessSink := some (a :: rest) }
      else
        match parsePos resolve p a with
        | .error e => .error e
        | .ok p2 => parsePosArgsGo resolve p2 rest

/-- parse: run the token loop, then the positional-only tail, then verify
the minimum arities, reporting the slot indexPosArg selects for the next
token as the missing argument. -/
def parseArgs (resolve : String → Except String String) (p : ParserS) (args : List String) :
    Except GoErr ParserS :=
  match parseAnyGo resolve p args with
  | .error e => .error e
  | .ok x =>
      match parsePosArgsGo resolve x.1 x.2 with
      | .error e => .error e
      | .ok p3 =>
          if p3.numPos < minPosOf p3.posArgs then
            .error (.user ("missing argument: " ++ quoteStr (posArgNameAt p3)))
          else .ok p3

/-- ParseErr: build the registry from the field list and parse the
tokens; a construction error is surfaced as a generic (non-user) error. -/
def parseErr (resolve : String → Except String String) (fields : List FieldSpec)
    (args : List String) : Except GoErr ParserS :=
  match newParserGo fields with
  | .error e => .error (.plain e)
  | .ok p => parseArgs resolve p args

/-- A resolver that is never consulted (registries without a tcpAddr
field). -/
def noResolve : String → Except String String := fun _ => .error "no resolver"

/-- An abstract successful resolution, standing for net.ResolveTCPAddr
on inputs it accepts (including the empty string, per the tests). -/
def tcpResolveOk : String → Except String String := fun s => .ok s

/-- Index of the first positional slot that has received fewer tokens
than its minimum arity when r tokens were distributed greedily in
registration order.  This follows the spec's words ("verify every
Positional Slot has received at least its minimum arity; the first (in
registration order) unsatisfied slot is reported"), for comparison with
the slot the code actually names. -/
def firstUnsatAux : List ArgT → Nat → Option Nat
  | [], _ => none
  | a :: rest, r =>
      if Nat.min r a.arity.max < a.arity.min then some 0
      else
        match firstUnsatAux rest (r - Nat.min r a.arity.max) with
        | some j => some (j + 1)
        | none => none

/-- Value of the named flag after a successful parse. -/
def flagValAfter (r : Except GoErr ParserS) (name : String) : Option Val :=
  match r with
  | .ok p => (p.flags.lookup name).map (fun a => a.val)
  | .error _ => none

/-- Value of the i-th positional slot after a successful parse. -/
def posValAfter (r : Except GoErr ParserS) (i : Nat) : Option Val :=
  match r with
  | .ok p => (p.posArgs.get? i).map (fun a => a.val)
  | .error _ => none

/-- Contents of the excess sink after a successful parse. -/
def excessAfter (r : Except GoErr ParserS) : Option (List String) :=
  match r with
  | .ok p => p.excessSink
  | .error _ => none

/-- Registry of TestBasic: one boolean flag named by tag "v". -/
def fieldsC1 : List FieldSpec := [.plain ⟨"Verbose", "v", "", .bool⟩]

/-- Registry with a single required positional string ARG. -/
def fieldsArgOnly : List FieldSpec := [.startPos, .plain ⟨"Arg", "", "", .str⟩]

/-- Registry with an optional positional A before a required positional B. -/
def fieldsC3 : List FieldSpec :=
  [.startPos, .plain ⟨"A", "", "?", .str⟩, .plain ⟨"B", "", "", .str⟩]

/-- Registry of TestNotBasic's boolean flag (derived name noUpload). -/
def fieldsC4 : List FieldSpec := [.plain ⟨"NoUpload", "", "", .bool⟩]

/-- Registry of TestTCPAddrNoExplicitValue: a *net.TCPAddr flag. -/
def addrFields : List FieldSpec := [.plain ⟨"Addr", "", "", .tcpAddr⟩]

/-- Registry with one zero-or-more positional slice of strings. -/
def fieldsC6 : List FieldSpec := [.startPos, .plain ⟨"Args", "", "*", .slice .str⟩]

/-- Registry of TestExcessArgs: only the excess sink. -/
def sinkFields : List FieldSpec := [.excessArgs]

/-- Registry of TestExcessArgsComplex: a flag, a positional command, and
the excess sink. -/
def sinkComplexFields : List FieldSpec :=
  [.plain ⟨"Verbose", "v", "", .bool⟩, .startPos, .plain ⟨"Command", "", "", .str⟩, .excessArgs]

/-- Registry of TestUint: one uint flag (derived name a). -/
def uintFields : List FieldSpec := [.plain ⟨"A", "", "", .uint⟩]

/-- The slot that registering uintFields produces for the flag a. -/
def uintSlotA : ArgT :=
  { ty := .uint, val := .vInt 0, arity := { min := 1, max := 1 }, name := "a" }

/-- Two fields whose flag names collide: A derives the name a, and the
second field overrides its name to a. -/
def dupFields : List FieldSpec :=
  [.plain ⟨"A", "", "", .bool⟩, .plain ⟨"V", "a", "", .bool⟩]

/-- Two fields with distinct flag names. -/
def okFields : List FieldSpec :=
  [.plain ⟨"A", "", "", .bool⟩, .plain ⟨"Verbose", "v", "", .bool⟩]

/-- Helper for C3: when the token stream ran out while some positional
slot is below its minimum arity, the slot indexPosArg selects for the
next token is never later in registration order than the first
unsatisfied slot (it can be earlier: an already-satisfied optional slot
that still has capacity). -/
theorem reported_le_first_unsat : ∀ (l : List ArgT) (r : Nat),
    (∀ a ∈ l, a.arity.min ≤ a.arity.max) → r < minPosOf l →
    ∃ i, (indexPosArgAux l r).map Prod.fst = some i ∧
      ∀ j, firstUnsatAux l r = some j → i ≤ j := by
  intro l
  induction l with
  | nil => intro r _ h; simp [minPosOf] at h
  | cons a t ih =>
    intro r hb h
    by_cases hr : r < a.arity.max
    · exact ⟨0, by simp [indexPosArgAux, hr], fun j _ => Nat.zero_le j⟩
    · have hmax : a.arity.max ≤ r := Nat.le_of_not_lt hr
      have hmin : a.arity.min ≤ a.arity.max := hb a (List.mem_cons_self a t)
      have h' : r - a.arity.max < minPosOf t := by
        simp [minPosOf] at h ⊢
        omega
      obtain ⟨i, hi, hij⟩ := ih (r - a.arity.max) (fun x hx => hb x (List.mem_cons_of_mem a hx)) h'
      rcases e : indexPosArgAux t (r - a.arity.max) with _ | x
      · rw [e] at hi; simp at hi
      · rw [e] at hi; simp at hi
        refine ⟨i + 1, ?_, ?_⟩
        · simp [indexPosArgAux, hr, e, hi]
        · intro j hj
          have hminr : Nat.min r a.arity.max = a.arity.max := Nat.min_eq_right hmax
          have hnot : ¬ (Nat.min r a.arity.max < a.arity.min) := by omega
          rcases e2 : firstUnsatAux t (r - Nat.min r a.arity.max) with _ | j2
          · simp [firstUnsatAux, hnot, e2] at hj
          · simp [firstUnsatAux, hnot, e2] at hj
            rw [hminr] at e2
            have := hij j2 e2
            omega

/-- Helper for C9: a name on which lookup finds nothing is not among the
stored keys. -/
theorem lookup_none_not_mem : ∀ (l : List (String × ArgT)) (n : String),
    l.lookup n = none → n ∉ l.map Prod.fst := by
  intro l
  induction l with
  | nil => intro n _; simp
  | cons kv t ih =>
    intro n hl
    obtain ⟨k, b⟩ := kv
    simp only [List.lookup] at hl
    by_cases hk : n == k
    · rw [hk] at hl; simp at hl
    · rw [Bool.not_eq_true] at hk
      rw [hk] at hl
      have hne : n ≠ k := by
        intro hcon; rw [hcon] at hk; simp at hk
      simp [hne, ih n hl]

/-- Helper for C9: the registration walk preserves distinctness of the
registered flag names, because addFlag refuses a name that is already
present. -/
theorem parseStructAux_nodup : ∀ (fields : List FieldSpec) (p : ParserS) (ps : Bool) (q : ParserS),
    (p.flags.map Prod.fst).Nodup → parseStructAux p ps fields = .ok q →
    (q.flags.map Prod.fst).Nodup := by
  intro fields
  induction fields with
  | nil => intro p ps q hn he; simp [parseStructAux] at he; rw [← he]; exact hn
  | cons f rest ih =>
    intro p ps q hn he
    cases f with
    | startPos =>
      by_cases hps : ps
      · simp only [parseStructAux] at he
        rw [if_pos hps] at he
        exact ih p ps q hn he
      · simp only [parseStructAux] at he
        rw [if_neg hps] at he
        exact ih p true q hn he
    | excessArgs =>
      simp only [parseStructAux] at he
      exact ih { p with excessSink := some [] } ps q hn he
    | plain ff =>
      simp only [parseStructAux] at he
      rw [if_pos (by simp [canMarshal, valueMarshaler])] at he
      by_cases hps : ps
      · rw [if_pos hps] at he
        exact ih _ ps q (by simpa [addPos] using hn) he
      · rw [if_neg hps] at he
        rcases haf : addFlag p ff with e | p2
        · rw [haf] at he; simp at he
        · rw [haf] at he
          simp only [addFlag] at haf
          by_cases hdup : (p.flags.lookup (structFieldFlag ff)).isSome
          · rw [if_pos hdup] at haf; simp at haf
          · rw [if_neg hdup] at haf
            have hlk : p.flags.lookup (structFieldFlag ff) = none := by
              rcases hx : p.flags.lookup (structFieldFlag ff) with _ | v
              · rfl
              · rw [hx] at hdup; simp at hdup
            have hnm := lookup_none_not_mem p.flags (structFieldFlag ff) hlk
            cases haf
            refine ih _ ps q ?_ he
            rw [List.map_append, List.nodup_append]
            refine ⟨hn, by simp, ?_⟩
            intro x hx1 hx2
            simp at hx2
            rw [hx2] at hx1
            exact hnm hx1

/-- C1: the claim says a single-dash and a double-dash prefix address the
same flag slot.  On the code they do not: parseAny strips exactly one
dash and looks the rest up, so the token "--v" is looked up under the key
"-v" and fails as an unknown flag even though the flag v is registered,
and "--help" likewise misses the reserved help keys.  This theorem
evaluates the code at those inputs. -/
theorem c1_dash_prefix_eval :
    flagValAfter (parseErr noResolve fieldsC1 ["-v"]) "v" = some (.vBool true)
    ∧ parseErr noResolve fieldsC1 ["--v"] = .error (.user "unknown flag: \"-v\"")
    ∧ parseErr noResolve fieldsC1 ["--help"] = .error (.user "unknown flag: \"-help\"") :=
  ⟨rfl, rfl, rfl⟩

/-- C2: the claim says the bare "--" separator alone is discarded and
every following token is positional.  On the code the first token after
"--" is also dropped (left = args[1:] is computed after args was already
advanced): with one required positional ARG, the input ["--", "x"] fails
with a missing argument instead of binding x, and in ["--", "x", "y"]
the slot receives y while x is lost.  This theorem evaluates the code at
those inputs. -/
theorem c2_separator_eval :
    parseErr noResolve fieldsArgOnly ["--", "x"] = .error (.user "missing argument: \"ARG\"")
    ∧ posValAfter (parseErr noResolve fieldsArgOnly ["--", "x", "y"]) 0 = some (.vStr "y") :=
  ⟨rfl, rfl⟩

/-- C3 counterexample: with an optional positional A before a required
positional B and an empty token stream, the missing-argument error names
A, the slot selected for the next token, although A (minimum arity 0) is
satisfied and the first unsatisfied slot in registration order is B. -/
theorem c3_counterexample :
    parseErr noResolve fieldsC3 [] = .error (.user "missing argument: \"A\"")
    ∧ (builtParser fieldsC3).posArgs.map (fun a => a.name) = ["A", "B"]
    ∧ (builtParser fieldsC3).posArgs.map (fun a => a.arity.min) = [0, 1]
    ∧ firstUnsatAux (builtParser fieldsC3).posArgs 0 = some 1
    ∧ (indexPosArgAux (builtParser fieldsC3).posArgs 0).map Prod.fst = some 0 :=
  ⟨rfl, rfl, rfl, rfl, rfl⟩

/-- C3 amended: when the token stream is exhausted below the combined
minimum arity, parsing fails with a missing-argument error naming the
slot that would have received the next positional token (the first slot
whose cumulative maximum arity exceeds the count of consumed tokens);
that slot is never later in registration order than the first unsatisfied
slot, but it can be an earlier, already-satisfied optional slot. -/
theorem c3_amended (p : ParserS) (resolve : String → Except String String)
    (hb : ∀ a ∈ p.posArgs, a.arity.min ≤ a.arity.max)
    (h : p.numPos < minPosOf p.posArgs) :
    parseArgs resolve p [] = .error (.user ("missing argument: " ++ quoteStr (posArgNameAt p)))
    ∧ ∃ i, (indexPosArgAux p.posArgs p.numPos).map Prod.fst = some i
        ∧ ∀ j, firstUnsatAux p.posArgs p.numPos = some j → i ≤ j :=
  ⟨by simp [parseArgs, parseAnyGo, parsePosArgsGo, h],
   reported_le_first_unsat p.posArgs p.numPos hb h⟩

/-- C3 witness: the amended statement applied to the optional-A
required-B registry with no tokens consumed. -/
theorem c3_amended_witness :
    (∀ a ∈ (builtParser fieldsC3).posArgs, a.arity.min ≤ a.arity.max)
    ∧ (builtParser fieldsC3).numPos < minPosOf (builtParser fieldsC3).posArgs
    ∧ (parseArgs noResolve (builtParser fieldsC3) []
        = .error (.user ("missing argument: " ++ quoteStr (posArgNameAt (builtParser fieldsC3))))
      ∧ ∃ i, (indexPosArgAux (builtParser fieldsC3).posArgs (builtParser fieldsC3).numPos).map Prod.fst = some i
          ∧ ∀ j, firstUnsatAux (builtParser fieldsC3).posArgs (builtParser fieldsC3).numPos = some j → i ≤ j) :=
  ⟨by decide, by decide, c3_amended (builtParser fieldsC3) noResolve (by decide) (by decide)⟩

/-- C4: an explicit =value on a boolean flag is honored: -noUpload=false
yields false even after -noUpload=true, a bare -noUpload defaults to
true, and for either boolean literal the explicitly supplied value is
what lands in the field. -/
theorem c4_bool_explicit_value :
    flagValAfter (parseErr noResolve fieldsC4 ["-noUpload=true", "-noUpload=false"]) "noUpload"
      = some (.vBool false)
    ∧ flagValAfter (parseErr noResolve fieldsC4 ["-noUpload"]) "noUpload" = some (.vBool true)
    ∧ ∀ b : Bool,
        flagValAfter (parseErr noResolve fieldsC4 ["-noUpload=" ++ (if b then "true" else "false")])
          "noUpload" = some (.vBool b) := by
  refine ⟨rfl, rfl, ?_⟩
  intro b; cases b <;> rfl

/-- C5: the *net.TCPAddr strategy is registered with
explicitValueRequired; invoking the flag without an =value part fails
with the userError "explicit value required" (whatever the resolver
does), while -addr=value hands the value to the resolver, succeeding in
particular for the empty explicit value. -/
theorem c5_explicit_value_required :
    (∀ (resolve : String → Except String String) (v : String),
      marshalVal resolve .tcpAddr (zeroVal .tcpAddr) v false
        = .error (.user "explicit value required"))
    ∧ (∀ resolve : String → Except String String,
        parseErr resolve addrFields ["-addr"]
          = .error (.plain "error setting flag \"addr\": explicit value required"))
    ∧ (∀ v : String,
        flagValAfter (parseErr tcpResolveOk addrFields ["-addr=" ++ v]) "addr" = some (.vAddr v))
    ∧ flagValAfter (parseErr tcpResolveOk addrFields ["-addr="]) "addr" = some (.vAddr "") :=
  ⟨fun _ _ => rfl, fun _ => rfl, fun _ => rfl, rfl⟩

/-- C6: an unbounded positional slice slot accumulates marshaled tokens
in encounter order, one appended element per token: the streams a, ab and
abc produce exactly those sequences, and on any prior contents the slice
strategy appends the newly marshaled element without overwriting. -/
theorem c6_slice_accumulation :
    posValAfter (parseErr noResolve fieldsC6 ["a"]) 0 = some (.vList [.vStr "a"])
    ∧ posValAfter (parseErr noResolve fieldsC6 ["a", "b"]) 0 = some (.vList [.vStr "a", .vStr "b"])
    ∧ posValAfter (parseErr noResolve fieldsC6 ["a", "b", "c"]) 0
        = some (.vList [.vStr "a", .vStr "b", .vStr "c"])
    ∧ ∀ (xs : List Val) (t : String),
        marshalVal noResolve (.slice .str) (.vList xs) t true
          = match sscanVal .str t with
            | .ok x => .ok (.vList (xs ++ [x]))
            | .error e => .error (.plain ("error parsing " ++ quoteStr t ++ ": " ++ e)) := by
  refine ⟨rfl, rfl, rfl, ?_⟩
  intro xs t
  cases h : sscanVal .str t <;> simp [marshalVal, h]

/-- C7: without a sink, a positional token with no remaining slot
capacity fails quoting the literal token; with a sink, every remaining
token (flag lookalikes included) is captured verbatim and parsing
succeeds, with flag parsing of the captured tokens suppressed. -/
theorem c7_excess_sink :
    parseErr noResolve fieldsArgOnly ["hello", "world"] = .error (.user "excess argument: \"world\"")
    ∧ (∀ toks : List String, excessAfter (parseErr noResolve sinkFields toks) = some toks)
    ∧ excessAfter (parseErr noResolve sinkComplexFields ["-v", "serve", "-addr=hi"])
        = some ["-addr=hi"]
    ∧ posValAfter (parseErr noResolve sinkComplexFields ["-v", "serve", "-addr=hi"]) 0
        = some (.vStr "serve")
    ∧ flagValAfter (parseErr noResolve sinkComplexFields ["-v", "serve", "-addr=hi"]) "v"
        = some (.vBool true) := by
  refine ⟨rfl, ?_, rfl, rfl, rfl⟩
  intro toks; cases toks <;> rfl

/-- C8 counterexample: a uint flag given the unconvertible value x makes
parsing fail with a fmt.Errorf-wrapped error that is not of the userError
class, so the Parse caller maps it to exit status 1, not the user-error
status 2 the claim requires. -/
theorem c8_counterexample :
    parseErr noResolve uintFields ["-a=x"]
      = .error (.plain "error setting flag \"a\": error parsing \"x\": invalid syntax")
    ∧ GoErr.isUser (.plain "error setting flag \"a\": error parsing \"x\": invalid syntax") = false
    ∧ exitCodeFor (.plain "error setting flag \"a\": error parsing \"x\": invalid syntax") = 1 :=
  ⟨rfl, rfl, rfl⟩

/-- C8 amended: whenever a found flag's marshal strategy fails (any
error, of either class), parseFlag wraps it with fmt.Errorf into a plain
error, which is never classified as a userError and which the caller maps
to exit status 1; unknown flags, in contrast, stay userError with exit
status 2. -/
theorem c8_amended (resolve : String → Except String String) (p : ParserS) (s : String)
    (a : ArgT) (e : GoErr)
    (hfound : p.flags.lookup (splitFlagToken s).1 = some a)
    (hm : marshalVal resolve a.ty a.val (splitFlagToken s).2.1 (splitFlagToken s).2.2 = .error e) :
    parseFlag resolve p s
      = .error (.plain ("error setting flag " ++ quoteStr (splitFlagToken s).1 ++ ": " ++ errMsg e))
    ∧ (∀ m : String, GoErr.isUser (.plain m) = false ∧ exitCodeFor (.plain m) = 1)
    ∧ parseErr noResolve uintFields ["-a=x"]
        = .error (.plain "error setting flag \"a\": error parsing \"x\": invalid syntax")
    ∧ parseErr noResolve uintFields ["-zzz"] = .error (.user "unknown flag: \"zzz\"")
    ∧ exitCodeFor (.user "unknown flag: \"zzz\"") = 2 := by
  refine ⟨?_, fun m => ⟨rfl, rfl⟩, rfl, rfl, rfl⟩
  simp only [parseFlag, hfound]
  rw [hm]

/-- C8 witness: the amended statement applied to the uint registry and
the token a=x, whose value fails the integer scan. -/
theorem c8_amended_witness :
    (builtParser uintFields).flags.lookup (splitFlagToken "a=x").1 = some uintSlotA
    ∧ marshalVal noResolve uintSlotA.ty uintSlotA.val (splitFlagToken "a=x").2.1
        (splitFlagToken "a=x").2.2 = .error (.plain "error parsing \"x\": invalid syntax")
    ∧ parseFlag noResolve (builtParser uintFields) "a=x"
        = .error (.plain ("error setting flag " ++ quoteStr (splitFlagToken "a=x").1 ++ ": "
            ++ errMsg (.plain "error parsing \"x\": invalid syntax"))) :=
  ⟨rfl, rfl,
   (c8_amended noResolve (builtParser uintFields) "a=x" uintSlotA
     (.plain "error parsing \"x\": invalid syntax") rfl rfl).1⟩

/-- C9: registering two fields whose flag names coincide is rejected
while the registry is being built, with the "defined more than once"
message surfaced as a non-user (configuration) error before any token is
examined; and every successfully built registry has pairwise-distinct
flag names. -/
theorem c9_unique_flag_names :
    (∀ args, parseErr noResolve dupFields args
      = .error (.plain "error adding flag: flag \"a\" defined more than once"))
    ∧ ∀ (fields : List FieldSpec) (p : ParserS),
        newParserGo fields = .ok p → (p.flags.map Prod.fst).Nodup := by
  constructor
  · intro args; rfl
  · intro fields p h
    exact parseStructAux_nodup fields emptyParser false p (by simp [emptyParser]) h

/-- C9 witness: the uniqueness part applied to a successfully built
two-flag registry. -/
theorem c9_unique_flag_names_witness :
    newParserGo okFields = .ok (builtParser okFields)
    ∧ ((builtParser okFields).flags.map Prod.fst).Nodup :=
  ⟨rfl, c9_unique_flag_names.2 okFields (builtParser okFields) rfl⟩

/-- C10: the empty token and the bare dash never have the flag shape;
they take the positional transition, landing in the next open positional
slot (a string slot stores "-") or raising an excess-argument error that
quotes the literal token when no slot has room. -/
theorem c10_dash_tokens :
    isFlagShape "" = false
    ∧ isFlagShape "-" = false
    ∧ posValAfter (parseErr noResolve fieldsArgOnly ["-"]) 0 = some (.vStr "-")
    ∧ parseErr noResolve ([] : List FieldSpec) ["-"] = .error (.user "excess argument: \"-\"")
    ∧ parseErr noResolve ([] : List FieldSpec) [""] = .error (.user "excess argument: \"\"") :=
  ⟨rfl, rfl, rfl, rfl, rfl⟩

end Tagflag
